import Mathlib

/-!
Verification of the interaction-state logic of the ganada restaurant site:
the static menu catalog with its category filter/sort, the cart store with
its local-storage persistence, the banner carousel index arithmetic and
touch gestures, the auto-hide header scroll tracker, and the overlay
mutual-exclusion state machine.

Sources embedded:
- `src/menuData.ts` (catalog data model),
- `src/Menu.tsx` (filter/sort, cart operations, sanitizer, persistence,
  totals, overlay effects),
- `src/Home.tsx` (carousel `go`, touch-end swipe handler),
- `src/App.tsx` (`useAutoHideHeader` scroll step).

Numbers appearing in the source (prices, quantities, scroll offsets, touch
deltas) are modelled as rationals; all concrete values in the catalog are
integers, so the arithmetic here is exact. Carousel indices are modelled as
integers, with JavaScript's truncating `%` rendered as `Int.tmod`.
-/

namespace Ganada

/-! ## Data model (`src/menuData.ts`) -/

/-- Category union from `menuData.ts` (`"All"` is the view-level sentinel). -/
inductive Category where
  | All
  | BEEF_BBQ
  | PORK_BBQ
  | OTHER_BBQ
  | HOTPOT
  | STEW
  | SIDEDISH
  | RICE
  | NOODLES
  | BEVERAGES
deriving DecidableEq, Fintype, Repr

/-- Tag vocabulary from `menuData.ts` (`("Best" | "Spicy")[]`). -/
inductive Tag where
  | Best
  | Spicy
deriving DecidableEq, Repr

/-- Price union from `menuData.ts`: a fixed RM amount or the market-price
sentinel. -/
inductive Price where
  | fixed (rm : ℚ)
  | market
deriving DecidableEq, Repr

/-- Menu item from `menuData.ts`. The optional `tags` array is modelled as a
list (absent = `[]`, which `tagScore` treats identically); presentational
fields (`desc`, `image`) are dropped as no claim mentions them. -/
structure Item where
  id : String
  name : String
  category : Category
  tags : List Tag
  price : Price
deriving DecidableEq, Repr

/-! The static catalog from `menuData.ts`, in source order. -/

def beefBbq1 : Item :=
  { id := "beef-bbq-1", name := "GALBI BONSAL", category := Category.BEEF_BBQ
    tags := [Tag.Best], price := Price.market }

def beefBbq2 : Item :=
  { id := "beef-bbq-2", name := "SAENG GALBI", category := Category.BEEF_BBQ
    tags := [], price := Price.market }

def beefBbq3 : Item :=
  { id := "beef-bbq-3", name := "HANWOO DEUNGSIM", category := Category.BEEF_BBQ
    tags := [], price := Price.market }

def beefBbq4 : Item :=
  { id := "beef-bbq-4", name := "WANG GALBI", category := Category.BEEF_BBQ
    tags := [], price := Price.market }

def porkBbq1 : Item :=
  { id := "pork-bbq-1", name := "SAMGYEOPSAL", category := Category.PORK_BBQ
    tags := [Tag.Best], price := Price.market }

def hotpot1 : Item :=
  { id := "hotpot-1", name := "KIMCHI JJIM", category := Category.HOTPOT
    tags := [], price := Price.fixed 140 }

def stew1 : Item :=
  { id := "stew-1", name := "KIMCHI JJIGAE", category := Category.STEW
    tags := [], price := Price.fixed 32 }

def side1 : Item :=
  { id := "side-1", name := "KIMCHI JEON", category := Category.SIDEDISH
    tags := [], price := Price.fixed 40 }

def noodles1 : Item :=
  { id := "noodles-1", name := "MUL NAENGMYEON", category := Category.NOODLES
    tags := [], price := Price.fixed 30 }

def noodles2 : Item :=
  { id := "noodles-2", name := "BIBIM NAENGMYEON", category := Category.NOODLES
    tags := [], price := Price.fixed 30 }

/-- The `items` array of `menuData.ts`, in source order. -/
def items : List Item :=
  [beefBbq1, beefBbq2, beefBbq3, beefBbq4, porkBbq1,
   hotpot1, stew1, side1, noodles1, noodles2]

/-! ## Category filter/sort (`src/Menu.tsx`, `tagScore` / `getItemsForCategory`) -/

/-- `tagScore` from `Menu.tsx`: `if (!tags || tags.length === 0) return 0;
return tags.includes("Best") ? 1 : 0;`. -/
def tagScore (tags : List Tag) : ℤ :=
  if tags.length = 0 then 0
  else if tags.contains Tag.Best then 1 else 0

/-- The comparator passed to `.sort` in `getItemsForCategory`, rendered as a
`Bool`-valued "precedes or equal" relation on index-tagged items: the JS
comparator returns `tagScore(b) - tagScore(a)` and falls back to
`a.idx - b.idx`, so `a` sorts no later than `b` iff `a` has the strictly
larger score, or the scores tie and `a`'s original index is no larger. -/
def itemLe (a b : ℕ × Item) : Bool :=
  if tagScore b.2.tags < tagScore a.2.tags then true
  else if tagScore a.2.tags < tagScore b.2.tags then false
  else a.1 ≤ b.1

/-- The index-tagged pipeline of `getItemsForCategory` before the final
`.map`: tag each catalog item with its original index, filter by the active
category (everything for `"All"`), and sort with the comparator above.
JavaScript's `Array.prototype.sort` is a stable sort, and with this
comparator — a strict total order on the distinct original indices — it
produces the unique sorted arrangement, which the stable
`List.insertionSort` also produces. -/
def getItemsIndexed (active : Category) : List (ℕ × Item) :=
  let indexed := items.enum
  let filtered :=
    if active = Category.All then indexed
    else indexed.filter (fun e => e.2.category == active)
  List.insertionSort (fun a b => itemLe a b = true) filtered

/-- `getItemsForCategory` from `Menu.tsx`. -/
def getItemsForCategory (active : Category) : List Item :=
  (getItemsIndexed active).map (·.2)

/-- C1. For every category selection `c`, `getItemsForCategory c` is a
permutation of the catalog items whose category equals `c` (all items when
`c` is the `"All"` sentinel), every promoted (`"Best"`-tagged) item precedes
every non-promoted item (tag scores are non-increasing along the result),
ties are ordered by ascending original catalog index (the index-tagged
pipeline is strictly sorted by score descending then index ascending), and
the function is pure: calling it twice with the same input yields identical
output including order. -/
theorem getItemsForCategory_filters_sorts_stable :
    ∀ c : Category,
      (getItemsForCategory c).Perm
        (items.filter (fun it => c == Category.All || it.category == c))
      ∧ (getItemsForCategory c).Pairwise
          (fun a b => tagScore b.tags ≤ tagScore a.tags)
      ∧ (getItemsIndexed c).Pairwise
          (fun a b => tagScore b.2.tags < tagScore a.2.tags ∨
            (tagScore a.2.tags = tagScore b.2.tags ∧ a.1 < b.1))
      ∧ getItemsForCategory c = getItemsForCategory c := by
  decide

/-! ## Cart store (`src/Menu.tsx`) -/

/-- Cart state: the React `Record<string, number>` mapping item id to
quantity, modelled as an association list in object-key insertion order
(JavaScript objects preserve string-key insertion order, which is what
`Object.entries` and spread updates observe). -/
abbrev Cart := List (String × ℚ)

/-- `items.find((x) => String(x.id) === String(id))`, the catalog lookup
used by `addToCart` / `incCart` and by the sanitizer. -/
def findItem (id : String) : Option Item :=
  items.find? (fun x => x.id == id)

/-- JavaScript's `{ ...prev, [id]: q }`: overwrite the value in place when
the key is present, otherwise append the new key at the end. -/
def setQty (c : Cart) (id : String) (q : ℚ) : Cart :=
  if c.any (fun e => e.1 == id) then
    c.map (fun e => if e.1 == id then (id, q) else e)
  else c ++ [(id, q)]

/-- JavaScript's `delete next[id]`: drop the entry for `id`. -/
def eraseKey (id : String) (c : Cart) : Cart :=
  c.filter (fun e => e.1 != id)

/-- The `it.price.kind === "market"` test used by the cart guards. -/
def priceIsMarket : Price → Bool
  | Price.market => true
  | Price.fixed _ => false

/-- `addToCart` from `Menu.tsx`: look the id up in the catalog; absent or
market-price items are rejected (no state change); otherwise add 1 to the
stored quantity (`(prev[id] ?? 0) + 1`). -/
def addToCart (id : String) (c : Cart) : Cart :=
  match findItem id with
  | none => c
  | some it =>
    if priceIsMarket it.price then c
    else setQty c id (((List.lookup id c).getD 0) + 1)

/-- `incCart` from `Menu.tsx`; its body is identical to `addToCart` in the
source. -/
def incCart (id : String) (c : Cart) : Cart :=
  match findItem id with
  | none => c
  | some it =>
    if priceIsMarket it.price then c
    else setQty c id (((List.lookup id c).getD 0) + 1)

/-- `decCart` from `Menu.tsx`: `cur = next[id] ?? 0; v = cur - 1;
if (v <= 0) delete next[id]; else next[id] = v`. -/
def decCart (id : String) (c : Cart) : Cart :=
  let cur := (List.lookup id c).getD 0
  let v := cur - 1
  if v ≤ 0 then eraseKey id c else setQty c id v

/-- An increment (`incCart`/`addToCart`) or decrement (`decCart`) request
for a fixed item id. -/
inductive CartOp where
  | inc
  | dec
deriving DecidableEq, Repr

/-- Apply one cart operation for item `id`. -/
def applyCartOp (id : String) (c : Cart) : CartOp → Cart
  | CartOp.inc => incCart id c
  | CartOp.dec => decCart id c

/-- Apply a sequence of cart operations for item `id`, left to right. -/
def applyCartOps (id : String) (ops : List CartOp) (c : Cart) : Cart :=
  ops.foldl (applyCartOp id) c

/-- One step of the per-operation clamped net count: increments add 1,
decrements subtract 1 clamping at 0 (`ℕ` subtraction). -/
def netStep (n : ℕ) : CartOp → ℕ
  | CartOp.inc => n + 1
  | CartOp.dec => n - 1

/-- The per-operation clamped net count of a sequence, starting at 0. -/
def clampNet (ops : List CartOp) : ℕ :=
  ops.foldl netStep 0

/-- The formula asserted by the original claim: total increments minus
total decrements, floored at 0 only at the end. -/
def netFloor (ops : List CartOp) : ℤ :=
  max 0 ((ops.count CartOp.inc : ℤ) - (ops.count CartOp.dec : ℤ))

/-- The single-entry cart holding `n` units of `id` (empty when `n = 0`). -/
def singleState (id : String) (n : ℕ) : Cart :=
  if n = 0 then [] else [(id, (n : ℚ))]

lemma incCart_nil {id : String} {it : Item} {r : ℚ}
    (hf : findItem id = some it) (hp : it.price = Price.fixed r) :
    incCart id ([] : Cart) = [(id, (1 : ℚ))] := by
  rw [incCart]
  simp [hf, hp, priceIsMarket, setQty]

lemma incCart_single {id : String} {it : Item} {r q : ℚ}
    (hf : findItem id = some it) (hp : it.price = Price.fixed r) :
    incCart id ([(id, q)] : Cart) = [(id, q + 1)] := by
  rw [incCart]
  simp [hf, hp, priceIsMarket, setQty, List.lookup]

lemma decCart_nil (id : String) : decCart id ([] : Cart) = [] := by
  rw [decCart]
  norm_num [eraseKey]

lemma decCart_single_le {q : ℚ} (id : String) (h : q - 1 ≤ 0) :
    decCart id ([(id, q)] : Cart) = [] := by
  rw [decCart]
  simp [List.lookup, eraseKey, h]

lemma decCart_single_gt {q : ℚ} (id : String) (h : ¬ q - 1 ≤ 0) :
    decCart id ([(id, q)] : Cart) = [(id, q - 1)] := by
  rw [decCart]
  simp [List.lookup, setQty, h]

lemma singleState_zero (id : String) : singleState id 0 = [] := rfl

lemma singleState_succ (id : String) (m : ℕ) :
    singleState id (m + 1) = [(id, ((m : ℚ) + 1))] := by
  simp [singleState]

lemma applyCartOp_singleState {id : String} {it : Item} {r : ℚ}
    (hf : findItem id = some it) (hp : it.price = Price.fixed r)
    (n : ℕ) (op : CartOp) :
    applyCartOp id (singleState id n) op = singleState id (netStep n op) := by
  cases op with
  | inc =>
    show incCart id (singleState id n) = singleState id (n + 1)
    cases n with
    | zero =>
      rw [singleState_zero, incCart_nil hf hp, singleState_succ]
      norm_num
    | succ m =>
      rw [singleState_succ, incCart_single hf hp, singleState_succ]
      push_cast
      rfl
  | dec =>
    show decCart id (singleState id n) = singleState id (n - 1)
    cases n with
    | zero =>
      rw [singleState_zero, decCart_nil]
    | succ m =>
      cases m with
      | zero =>
        rw [singleState_succ, decCart_single_le id (by norm_num)]
        rfl
      | succ k =>
        have h : ¬ ((k : ℚ) + 1 + 1) - 1 ≤ 0 := by
          have : (0 : ℚ) ≤ (k : ℚ) := by positivity
          linarith
        rw [singleState_succ, decCart_single_gt id (by push_cast at h ⊢; linarith)]
        show _ = singleState id (k + 1)
        rw [singleState_succ]
        push_cast
        ring_nf

lemma applyCartOps_singleState {id : String} {it : Item} {r : ℚ}
    (hf : findItem id = some it) (hp : it.price = Price.fixed r)
    (ops : List CartOp) (n : ℕ) :
    List.foldl (applyCartOp id) (singleState id n) ops
      = singleState id (List.foldl netStep n ops) := by
  induction ops generalizing n with
  | nil => rfl
  | cons op rest ih =>
    simp only [List.foldl_cons, applyCartOp_singleState hf hp, ih]

/-- C2 (amended). For every sequence of `incCart`/`decCart` operations on a
fixed-price catalog item id, starting from the empty cart, the resulting
cart is exactly the single entry for that id holding the per-operation
clamped fold of the sequence (each decrement subtracts 1 but clamps at 0
immediately), and the entry is absent exactly when that count is 0 — in
particular the quantity is never present as 0 or negative. -/
theorem cart_net_clamped (id : String) (it : Item) (r : ℚ)
    (ops : List CartOp)
    (hf : findItem id = some it) (hp : it.price = Price.fixed r) :
    applyCartOps id ops ([] : Cart)
      = (if clampNet ops = 0 then ([] : Cart)
         else [(id, (clampNet ops : ℚ))]) := by
  have h := applyCartOps_singleState hf hp ops 0
  simpa [applyCartOps, singleState, clampNet] using h

theorem cart_net_clamped_witness :
    applyCartOps "stew-1" [CartOp.inc, CartOp.inc, CartOp.dec] ([] : Cart)
      = (if clampNet [CartOp.inc, CartOp.inc, CartOp.dec] = 0 then ([] : Cart)
         else [("stew-1", (clampNet [CartOp.inc, CartOp.inc, CartOp.dec] : ℚ))]) :=
  cart_net_clamped "stew-1" stew1 32 [CartOp.inc, CartOp.inc, CartOp.dec]
    (by decide) (by decide)

/-- C2 (counterexample to the original claim). The claim says the stored
quantity always equals increments minus decrements floored at 0 at the end;
for the sequence decrement-then-increment on `"stew-1"` that formula gives
0 (so the entry should be absent), but the code stores quantity 1. -/
theorem cart_netFloor_counterexample :
    ¬ (List.lookup "stew-1"
          (applyCartOps "stew-1" [CartOp.dec, CartOp.inc] ([] : Cart))
        = (if netFloor [CartOp.dec, CartOp.inc] = 0 then none
           else some ((netFloor [CartOp.dec, CartOp.inc] : ℚ)))) := by
  have h : applyCartOps "stew-1" [CartOp.dec, CartOp.inc] ([] : Cart)
      = [("stew-1", (1 : ℚ))] := by
    have h0 := @applyCartOps_singleState "stew-1" stew1 32
      (by decide) (by decide) [CartOp.dec, CartOp.inc] 0
    simpa [applyCartOps, singleState, netStep] using h0
  rw [h]
  have hnet : netFloor [CartOp.dec, CartOp.inc] = 0 := by decide
  simp [hnet, List.lookup]

/-- C3. `addToCart` and `incCart` on an id that is absent from the catalog,
or whose catalog price is the market-price sentinel, leave the cart state
exactly unchanged. -/
theorem addToCart_incCart_rejected (id : String) (c : Cart)
    (h : findItem id = none ∨
      ∃ it, findItem id = some it ∧ it.price = Price.market) :
    addToCart id c = c ∧ incCart id c = c := by
  rcases h with h | ⟨it, hf, hp⟩
  · rw [addToCart, incCart]
    simp [h]
  · rw [addToCart, incCart]
    simp [hf, hp, priceIsMarket]

theorem addToCart_incCart_rejected_witness :
    addToCart "beef-bbq-1" ([("stew-1", (2 : ℚ))] : Cart)
        = [("stew-1", (2 : ℚ))]
      ∧ incCart "beef-bbq-1" ([("stew-1", (2 : ℚ))] : Cart)
        = [("stew-1", (2 : ℚ))] :=
  addToCart_incCart_rejected "beef-bbq-1" [("stew-1", (2 : ℚ))]
    (Or.inr ⟨beefBbq1, by decide, rfl⟩)

/-! ## Cart persistence (`src/Menu.tsx`: `sanitize`, the persist effect and
the `useState` initializer) -/

/-- The loop body of `sanitize` from the cart `useState` initializer: for
each stored entry, drop non-positive quantities (`!Number.isFinite(qty) ||
qty <= 0` — non-finite values do not exist in `ℚ`, so only the sign test
remains), drop ids absent from the catalog, drop items whose current price
is the market sentinel, and store `Math.floor(qty)` into the output object
(`out[String(id)] = Math.floor(qty)`, modelled by `setQty`). -/
def sanitizeLoop : Cart → List (String × ℚ) → Cart
  | out, [] => out
  | out, (id, v) :: rest =>
    if v ≤ 0 then sanitizeLoop out rest
    else
      match findItem id with
      | none => sanitizeLoop out rest
      | some it =>
        if priceIsMarket it.price then sanitizeLoop out rest
        else sanitizeLoop (setQty out id ((⌊v⌋ : ℤ) : ℚ)) rest

/-- `sanitize` from the cart `useState` initializer in `Menu.tsx`. -/
def sanitize (l : List (String × ℚ)) : Cart :=
  sanitizeLoop [] l

/-- The persist effect from `Menu.tsx`: when the cart map is empty the
storage key `"ganada_cart_v1"` is removed (`none`), otherwise the JSON
serialization of the map is written. `JSON.stringify`/`JSON.parse`
round-trip a finite-number map exactly, so the stored string is modelled by
the map itself. -/
def persistStore (cart : Cart) : Option Cart :=
  if cart = [] then none else some cart

/-- The cart `useState` initializer in `Menu.tsx`: a missing key rehydrates
as the empty cart, a present value is parsed and passed through
`sanitize`. -/
def loadCart : Option Cart → Cart
  | none => []
  | some s => sanitize s

/-- The sanitizer as the claim words it: keep exactly the entries whose id
is in the current catalog with a non-market price and whose quantity is
positive, flooring surviving quantities to integers. -/
def sanitizeSpec : List (String × ℚ) → Cart
  | [] => []
  | (id, v) :: rest =>
    match findItem id with
    | none => sanitizeSpec rest
    | some it =>
      if priceIsMarket it.price then sanitizeSpec rest
      else if 0 < v then (id, ((⌊v⌋ : ℤ) : ℚ)) :: sanitizeSpec rest
      else sanitizeSpec rest

lemma sanitizeSpec_cons_nonpos {id : String} {v : ℚ} {rest : List (String × ℚ)}
    (h : ¬ 0 < v) : sanitizeSpec ((id, v) :: rest) = sanitizeSpec rest := by
  rw [sanitizeSpec]
  cases hfi : findItem id with
  | none => rfl
  | some it =>
    by_cases hm : priceIsMarket it.price
    · simp [hm]
    · simp [hm, h]

lemma sanitizeSpec_cons_none {id : String} {v : ℚ} {rest : List (String × ℚ)}
    (hfi : findItem id = none) :
    sanitizeSpec ((id, v) :: rest) = sanitizeSpec rest := by
  rw [sanitizeSpec]
  simp [hfi]

lemma sanitizeSpec_cons_market {id : String} {v : ℚ} {it : Item}
    {rest : List (String × ℚ)}
    (hfi : findItem id = some it) (hm : priceIsMarket it.price = true) :
    sanitizeSpec ((id, v) :: rest) = sanitizeSpec rest := by
  rw [sanitizeSpec]
  simp [hfi, hm]

lemma sanitizeSpec_cons_keep {id : String} {v : ℚ} {it : Item}
    {rest : List (String × ℚ)}
    (hfi : findItem id = some it) (hm : priceIsMarket it.price = false)
    (hpos : 0 < v) :
    sanitizeSpec ((id, v) :: rest)
      = (id, ((⌊v⌋ : ℤ) : ℚ)) :: sanitizeSpec rest := by
  rw [sanitizeSpec]
  simp [hfi, hm, hpos]

lemma sanitizeLoop_cons_nonpos {out : Cart} {id : String} {v : ℚ}
    {rest : List (String × ℚ)} (hv : v ≤ 0) :
    sanitizeLoop out ((id, v) :: rest) = sanitizeLoop out rest := by
  rw [sanitizeLoop, if_pos hv]

lemma sanitizeLoop_cons_none {out : Cart} {id : String} {v : ℚ}
    {rest : List (String × ℚ)} (hv : ¬ v ≤ 0) (hfi : findItem id = none) :
    sanitizeLoop out ((id, v) :: rest) = sanitizeLoop out rest := by
  rw [sanitizeLoop, if_neg hv]
  simp [hfi]

lemma sanitizeLoop_cons_market {out : Cart} {id : String} {v : ℚ} {it : Item}
    {rest : List (String × ℚ)} (hv : ¬ v ≤ 0)
    (hfi : findItem id = some it) (hm : priceIsMarket it.price = true) :
    sanitizeLoop out ((id, v) :: rest) = sanitizeLoop out rest := by
  rw [sanitizeLoop, if_neg hv]
  simp [hfi, hm]

lemma sanitizeLoop_cons_keep {out : Cart} {id : String} {v : ℚ} {it : Item}
    {rest : List (String × ℚ)} (hv : ¬ v ≤ 0)
    (hfi : findItem id = some it) (hm : priceIsMarket it.price = false) :
    sanitizeLoop out ((id, v) :: rest)
      = sanitizeLoop (setQty out id ((⌊v⌋ : ℤ) : ℚ)) rest := by
  rw [sanitizeLoop, if_neg hv]
  simp [hfi, hm]

lemma setQty_append (out : Cart) (id : String) (q : ℚ)
    (h : ∀ e ∈ out, e.1 ≠ id) : setQty out id q = out ++ [(id, q)] := by
  rw [setQty]
  rw [if_neg]
  simp only [List.any_eq_true, not_exists, not_and]
  intro e he
  simpa using h e he

lemma sanitizeLoop_append (l : List (String × ℚ)) :
    ∀ out : Cart, (∀ e ∈ out, ∀ f ∈ l, e.1 ≠ f.1) →
      (l.map Prod.fst).Nodup →
      sanitizeLoop out l = out ++ sanitizeSpec l := by
  induction l with
  | nil => intro out _ _; simp [sanitizeLoop, sanitizeSpec]
  | cons e rest ih =>
    intro out hdisj hnodup
    obtain ⟨id, v⟩ := e
    have hdisj' : ∀ e ∈ out, ∀ f ∈ rest, e.1 ≠ f.1 := by
      intro e he f hf
      exact hdisj e he f (List.mem_cons_of_mem _ hf)
    have hnodup' : (rest.map Prod.fst).Nodup := by
      simpa using hnodup.of_cons
    by_cases hv : v ≤ 0
    · rw [sanitizeLoop_cons_nonpos hv, sanitizeSpec_cons_nonpos (not_lt.mpr hv),
        ih out hdisj' hnodup']
    · cases hfi : findItem id with
      | none =>
        rw [sanitizeLoop_cons_none hv hfi, sanitizeSpec_cons_none hfi,
          ih out hdisj' hnodup']
      | some it =>
        by_cases hm : priceIsMarket it.price
        · rw [sanitizeLoop_cons_market hv hfi hm, sanitizeSpec_cons_market hfi hm,
            ih out hdisj' hnodup']
        · have hmf : priceIsMarket it.price = false := by
            simpa using hm
          have hkey : ∀ e ∈ out, e.1 ≠ id := by
            intro e he
            exact hdisj e he (id, v) (List.mem_cons_self _ _)
          have hid : id ∉ rest.map Prod.fst := by
            have h2 := hnodup
            simp only [List.map_cons, List.nodup_cons] at h2
            exact h2.1
          have hdisj2 : ∀ e ∈ out ++ [(id, ((⌊v⌋ : ℤ) : ℚ))],
              ∀ f ∈ rest, e.1 ≠ f.1 := by
            intro e he f hf
            rcases List.mem_append.mp he with he | he
            · exact hdisj' e he f hf
            · have heq : e = (id, ((⌊v⌋ : ℤ) : ℚ)) := by simpa using he
              subst heq
              intro hcontra
              have hf1 : f.1 ∈ rest.map Prod.fst :=
                List.mem_map_of_mem Prod.fst hf
              rw [← hcontra] at hf1
              exact hid hf1
          rw [sanitizeLoop_cons_keep hv hfi hmf,
            setQty_append out id _ hkey, ih _ hdisj2 hnodup',
            sanitizeSpec_cons_keep hfi hmf (not_le.mp hv),
            List.append_assoc]
          rfl

lemma sanitize_eq_spec (l : List (String × ℚ))
    (hnodup : (l.map Prod.fst).Nodup) : sanitize l = sanitizeSpec l := by
  have h := sanitizeLoop_append l [] (by intro e he; cases he) hnodup
  simpa [sanitize] using h

lemma sanitizeSpec_valid (l : List (String × ℚ))
    (hvalid : ∀ e ∈ l, 0 < e.2 ∧ ∃ it, findItem e.1 = some it ∧
      priceIsMarket it.price = false ∧ ∃ n : ℕ, e.2 = (n : ℚ)) :
    sanitizeSpec l = l := by
  induction l with
  | nil => rfl
  | cons e rest ih =>
    obtain ⟨hpos, it, hfi, hm, n, hn⟩ := hvalid e (List.mem_cons_self _ _)
    have hfloor : ((⌊e.2⌋ : ℤ) : ℚ) = e.2 := by
      rw [hn]
      norm_num
    obtain ⟨id, v⟩ := e
    rw [sanitizeSpec_cons_keep hfi hm hpos, hfloor,
      ih (fun f hf => hvalid f (List.mem_cons_of_mem _ hf))]

/-- C4. Round-trip persistence: for every cart map with distinct keys,
serializing through the persist effect and rehydrating through the startup
sanitizer produces exactly the map described by the claim — entries whose
id is not in the catalog, entries whose item's current price is the market
sentinel, and entries with non-positive quantities are dropped, and
surviving quantities are floored to integers; and a cart containing only
valid fixed-price entries with positive integer quantities round-trips
identically. -/
theorem cart_roundtrip_sanitizes (cart : Cart)
    (hnodup : (cart.map Prod.fst).Nodup) :
    loadCart (persistStore cart) = sanitizeSpec cart
    ∧ ((∀ e ∈ cart, 0 < e.2 ∧ ∃ it, findItem e.1 = some it ∧
          priceIsMarket it.price = false ∧ ∃ n : ℕ, e.2 = (n : ℚ)) →
        loadCart (persistStore cart) = cart) := by
  have hload : loadCart (persistStore cart) = sanitize cart := by
    by_cases h : cart = []
    · subst h; rfl
    · simp [persistStore, h, loadCart]
  constructor
  · rw [hload, sanitize_eq_spec cart hnodup]
  · intro hvalid
    rw [hload, sanitize_eq_spec cart hnodup, sanitizeSpec_valid cart hvalid]

theorem cart_roundtrip_sanitizes_witness :
    loadCart (persistStore [("stew-1", (2 : ℚ)), ("hotpot-1", (1 : ℚ))])
      = [("stew-1", (2 : ℚ)), ("hotpot-1", (1 : ℚ))] :=
  (cart_roundtrip_sanitizes [("stew-1", (2 : ℚ)), ("hotpot-1", (1 : ℚ))]
      (by decide)).2
    (by
      intro e he
      simp only [List.mem_cons, List.not_mem_nil, or_false] at he
      rcases he with he | he
      · subst he
        exact ⟨by norm_num, stew1, by decide, rfl, 2, by norm_num⟩
      · subst he
        exact ⟨by norm_num, hotpot1, by decide, rfl, 1, by norm_num⟩)

/-- C10. The persist effect removes the storage key exactly when the cart
map is empty (an empty object is never written), writes exactly the current
map otherwise, and a missing key rehydrates as the empty cart on startup. -/
theorem persist_empty_removes (cart : Cart) :
    (cart = [] → persistStore cart = none)
    ∧ (cart ≠ [] → persistStore cart = some cart)
    ∧ persistStore cart ≠ some ([] : Cart)
    ∧ loadCart none = [] := by
  by_cases h : cart = []
  · subst h
    refine ⟨fun _ => rfl, fun hne => absurd rfl hne, ?_, rfl⟩
    simp [persistStore]
  · refine ⟨fun he => absurd he h, fun _ => by simp [persistStore, h], ?_, rfl⟩
    simp [persistStore, h]

theorem persist_empty_removes_witness :
    persistStore [("stew-1", (1 : ℚ))] = some [("stew-1", (1 : ℚ))] :=
  (persist_empty_removes [("stew-1", (1 : ℚ))]).2.1 (by simp)

/-! ## Banner carousel (`src/Home.tsx`, `BannerCarousel`) -/

/-- Carousel slide from `Home.tsx` (`type Slide`); the internal-route field
named `to` in the source is rendered `toRoute` (`to` is reserved). -/
structure Slide where
  id : String
  imageSrc : String
  imageAlt : String
  href : Option String := none
  toRoute : Option String := none
  ctaLabel : Option String := none
deriving DecidableEq, Repr

/-- The three banner slides passed to `BannerCarousel` in `Home.tsx`. -/
def homeSlides : List Slide :=
  [{ id := "b1", imageSrc := "home/banners/01.webp", imageAlt := "Banner 1"
     toRoute := some "/promos" },
   { id := "b2", imageSrc := "home/banners/02.webp", imageAlt := "Banner 2"
     toRoute := some "/menu" },
   { id := "b3", imageSrc := "home/banners/03.webp", imageAlt := "Banner 3"
     href := some "https://wa.me/60123456789" }]

/-- `go` from `BannerCarousel`: `const n = slides.length; if (n === 0)
return; const v = ((next % n) + n) % n; setIdx(v);`. JavaScript `%` is the
truncating remainder, `Int.tmod`. The state left unchanged by the early
return is the current index. -/
def goCarousel (slides : List Slide) (idx next : ℤ) : ℤ :=
  let n : ℤ := slides.length
  if n = 0 then idx
  else ((next.tmod n) + n).tmod n

/-- `prev` from `BannerCarousel`: `go(idx - 1)`. -/
def carouselPrev (slides : List Slide) (idx : ℤ) : ℤ :=
  goCarousel slides idx (idx - 1)

/-- `next` from `BannerCarousel`: `go(idx + 1)`. -/
def carouselNext (slides : List Slide) (idx : ℤ) : ℤ :=
  goCarousel slides idx (idx + 1)

lemma tmod_neg_dividend (a b : ℤ) : (-a).tmod b = -(a.tmod b) := by
  rw [Int.tmod_def, Int.tmod_def, Int.neg_tdiv]
  ring

lemma tmod_lower_bound (n L : ℤ) (hL : 0 < L) : -L < n.tmod L := by
  rcases le_or_lt 0 n with hn | hn
  · have h0 := Int.tmod_nonneg L hn
    linarith
  · have h1 : n.tmod L = -((-n).tmod L) := by
      nth_rewrite 1 [show n = -(-n) from by ring]
      rw [tmod_neg_dividend]
    have h2 : (-n).tmod L < L := Int.tmod_lt_of_pos (-n) hL
    rw [h1]
    linarith

lemma emod_of_tmod (n L : ℤ) : (n.tmod L) % L = n % L := by
  rw [Int.tmod_def]
  have h : n - L * n.tdiv L = n + L * (-(n.tdiv L)) := by ring
  rw [h, Int.add_mul_emod_self_left]

lemma goCarousel_eq_emod (slides : List Slide) (idx n : ℤ)
    (h : 0 < slides.length) :
    goCarousel slides idx n = n % (slides.length : ℤ) := by
  have hL : (0 : ℤ) < (slides.length : ℤ) := by exact_mod_cast h
  rw [goCarousel]
  rw [if_neg (by positivity)]
  have hlow := tmod_lower_bound n _ hL
  have h0 : 0 ≤ n.tmod (slides.length : ℤ) + (slides.length : ℤ) := by
    linarith
  rw [Int.tmod_eq_emod h0 (le_of_lt hL)]
  calc (n.tmod (slides.length : ℤ) + (slides.length : ℤ))
          % (slides.length : ℤ)
      = n.tmod (slides.length : ℤ) % (slides.length : ℤ) := by
        simp [Int.add_mul_emod_self_left]
    _ = n % (slides.length : ℤ) := emod_of_tmod n _

/-- C5. Carousel `go` is total and wraps in both directions: for a slide
list of length `L > 0` and any integer `n` (including negative), the
resulting index is `((n mod L) + L) mod L` (mathematical mod), which lies
in `[0, L)`; for `L = 0` every navigation call (`go`, `prev`, `next`) is a
no-op that leaves the active index unchanged. -/
theorem carousel_go_wraps (slides : List Slide) (idx n : ℤ) :
    (0 < slides.length →
      goCarousel slides idx n
          = ((n % (slides.length : ℤ)) + (slides.length : ℤ))
              % (slides.length : ℤ)
        ∧ 0 ≤ goCarousel slides idx n
        ∧ goCarousel slides idx n < (slides.length : ℤ))
    ∧ (slides.length = 0 →
      goCarousel slides idx n = idx ∧ carouselPrev slides idx = idx
        ∧ carouselNext slides idx = idx) := by
  constructor
  · intro h
    have hL : (0 : ℤ) < (slides.length : ℤ) := by exact_mod_cast h
    have hmod : ((n % (slides.length : ℤ)) + (slides.length : ℤ))
        % (slides.length : ℤ) = n % (slides.length : ℤ) := by
      simp [Int.add_mul_emod_self_left]
    rw [goCarousel_eq_emod slides idx n h, hmod]
    exact ⟨rfl, Int.emod_nonneg n (by positivity),
      Int.emod_lt_of_pos n hL⟩
  · intro h
    simp [goCarousel, carouselPrev, carouselNext, h]

theorem carousel_go_wraps_witness :
    goCarousel homeSlides 0 (-4)
        = (((-4 : ℤ) % (homeSlides.length : ℤ)) + (homeSlides.length : ℤ))
            % (homeSlides.length : ℤ)
      ∧ 0 ≤ goCarousel homeSlides 0 (-4)
      ∧ goCarousel homeSlides 0 (-4) < (homeSlides.length : ℤ) :=
  (carousel_go_wraps homeSlides 0 (-4)).1 (by decide)

/-- The `onTouchEnd` handler of `BannerCarousel`: with accumulated
horizontal delta `dx`, `if (Math.abs(dx) < 42) return; if (dx > 0) prev();
else next();`. -/
def touchEndSwipe (slides : List Slide) (idx : ℤ) (dx : ℚ) : ℤ :=
  if |dx| < 42 then idx
  else if 0 < dx then carouselPrev slides idx
  else carouselNext slides idx

/-- C8 (amended). On carousel touch-end a slide transition occurs if and
only if the absolute accumulated horizontal delta is at least the swipe
threshold of 42 units (not strictly greater): below 42 the index is
unchanged, at 42 or more a rightward delta (`dx > 0`) runs `prev()` and a
leftward delta runs `next()`, and for a slide list with at least two
slides and an in-range index the resulting index differs from the current
one. -/
theorem touchEnd_threshold (slides : List Slide) (idx : ℤ) (dx : ℚ) :
    (|dx| < 42 → touchEndSwipe slides idx dx = idx)
    ∧ (42 ≤ |dx| → 0 < dx →
        touchEndSwipe slides idx dx = carouselPrev slides idx)
    ∧ (42 ≤ |dx| → dx < 0 →
        touchEndSwipe slides idx dx = carouselNext slides idx)
    ∧ (2 ≤ slides.length → 0 ≤ idx → idx < (slides.length : ℤ) →
        42 ≤ |dx| → touchEndSwipe slides idx dx ≠ idx) := by
  refine ⟨?_, ?_, ?_, ?_⟩
  · intro h
    rw [touchEndSwipe, if_pos h]
  · intro h hpos
    rw [touchEndSwipe, if_neg (not_lt.mpr h), if_pos hpos]
  · intro h hneg
    rw [touchEndSwipe, if_neg (not_lt.mpr h), if_neg (not_lt.mpr hneg.le)]
  · intro hlen hidx0 hidxL habs
    have hpos : 0 < slides.length := by omega
    have hL : (2 : ℤ) ≤ (slides.length : ℤ) := by exact_mod_cast hlen
    have hself : idx % (slides.length : ℤ) = idx :=
      Int.emod_eq_of_lt hidx0 hidxL
    have hdx0 : dx ≠ 0 := by
      intro h0
      rw [h0] at habs
      norm_num at habs
    rw [touchEndSwipe, if_neg (not_lt.mpr habs)]
    rcases lt_or_gt_of_ne hdx0 with hneg | hpos2
    · rw [if_neg (not_lt.mpr hneg.le)]
      rw [carouselNext, goCarousel_eq_emod slides idx _ hpos]
      intro hcontra
      have hmodeq : (idx + 1) % (slides.length : ℤ)
          = idx % (slides.length : ℤ) := by rw [hcontra, hself]
      have hdvd : (slides.length : ℤ) ∣ idx - (idx + 1) :=
        Int.ModEq.dvd hmodeq
      have hdvd1 : (slides.length : ℤ) ∣ 1 := by
        have h1 : idx - (idx + 1) = -1 := by ring
        rw [h1] at hdvd
        exact (dvd_neg.mp hdvd)
      have := Int.le_of_dvd one_pos hdvd1
      omega
    · rw [if_pos hpos2]
      rw [carouselPrev, goCarousel_eq_emod slides idx _ hpos]
      intro hcontra
      have hmodeq : (idx - 1) % (slides.length : ℤ)
          = idx % (slides.length : ℤ) := by rw [hcontra, hself]
      have hdvd : (slides.length : ℤ) ∣ idx - (idx - 1) :=
        Int.ModEq.dvd hmodeq
      have hdvd1 : (slides.length : ℤ) ∣ 1 := by
        have h1 : idx - (idx - 1) = 1 := by ring
        rwa [h1] at hdvd
      have := Int.le_of_dvd one_pos hdvd1
      omega

theorem touchEnd_threshold_witness :
    touchEndSwipe homeSlides 0 100 = carouselPrev homeSlides 0 :=
  (touchEnd_threshold homeSlides 0 100).2.1 (by norm_num) (by norm_num)

/-- C8 (counterexample to the original claim). The claim says a transition
occurs only when the absolute delta exceeds 42; at `dx = 42` exactly the
absolute delta does not exceed 42, yet the handler runs `prev()` and moves
the banner carousel from index 0 to index 2. -/
theorem touchEnd_threshold_counterexample :
    touchEndSwipe homeSlides 0 42 = 2 ∧ ¬ ((42 : ℚ) < |(42 : ℚ)|) := by
  constructor
  · rw [touchEndSwipe]
    rw [if_neg (by norm_num), if_pos (by norm_num)]
    decide
  · norm_num

/-! ## Auto-hide header (`src/App.tsx`, `useAutoHideHeader`) -/

/-- One processed scroll sample of `useAutoHideHeader`: the state is the
pair (hidden flag, last seen offset); with current offset `y` and
`diff = y - lastY`, the handler forces visible at or below
`SHOW_AT_TOP_Y = 24`, hides when `diff > HIDE_DELTA = 14`, shows when
`diff < -SHOW_DELTA = -10`, and otherwise leaves the flag unchanged,
always updating the stored offset. -/
def scrollStep (s : Bool × ℚ) (y : ℚ) : Bool × ℚ :=
  let diff := y - s.2
  if y ≤ 24 then (false, y)
  else if 14 < diff then (true, y)
  else if diff < -10 then (false, y)
  else (s.1, y)

/-- C7. The scroll-visibility tracker is a hysteresis machine over
(hidden flag, last offset): a sample at `y ≤ 24` forces visible, otherwise
a downward delta above 14 forces hidden, an upward delta below −10 forces
visible, and anything in between leaves the flag unchanged; in particular,
starting visible at offset 0, one step to offset 50 hides the header and a
subsequent step back to offset 10 shows it again. -/
theorem scroll_hysteresis (hidden : Bool) (last y : ℚ) :
    (y ≤ 24 → scrollStep (hidden, last) y = (false, y))
    ∧ (¬ y ≤ 24 → 14 < y - last → scrollStep (hidden, last) y = (true, y))
    ∧ (¬ y ≤ 24 → ¬ 14 < y - last → y - last < -10 →
        scrollStep (hidden, last) y = (false, y))
    ∧ (¬ y ≤ 24 → ¬ 14 < y - last → ¬ y - last < -10 →
        scrollStep (hidden, last) y = (hidden, y))
    ∧ scrollStep (false, 0) 50 = (true, 50)
    ∧ scrollStep (scrollStep (false, 0) 50) 10 = (false, 10) := by
  refine ⟨?_, ?_, ?_, ?_, ?_, ?_⟩
  · intro h
    rw [scrollStep, if_pos h]
  · intro h1 h2
    rw [scrollStep, if_neg h1, if_pos h2]
  · intro h1 h2 h3
    rw [scrollStep, if_neg h1, if_neg h2, if_pos h3]
  · intro h1 h2 h3
    rw [scrollStep, if_neg h1, if_neg h2, if_neg h3]
  · rw [scrollStep]
    norm_num
  · rw [show scrollStep (false, 0) 50 = (true, 50) from by
        rw [scrollStep]; norm_num]
    rw [scrollStep]
    norm_num

theorem scroll_hysteresis_witness :
    scrollStep (true, 30) 100 = (true, 100) :=
  (scroll_hysteresis true 30 100).2.1 (by norm_num) (by norm_num)

/-! ## Cart totals (`src/Menu.tsx`, `cartItems` / `cartTotals`) -/

/-- `cartItems` from `Menu.tsx`: `Object.entries(cart)` filtered to
positive quantities, joined with the catalog (`map.get(id) ?? null`, a
`Map` built from the unique catalog ids, hence the same lookup as
`findItem`), dropping entries whose item is absent. -/
def cartItems (cart : Cart) : List (String × ℚ × Item) :=
  (cart.filter (fun e => decide (0 < e.2))).filterMap
    (fun e => (findItem e.1).map (fun it => (e.1, e.2, it)))

/-- `Math.round(x * 100) / 100`, the 2-decimal rounding in `cartTotals`;
`Math.round` is floor of `x + 1/2` (halves round toward positive
infinity). -/
def round2 (x : ℚ) : ℚ :=
  ((⌊x * 100 + 1 / 2⌋ : ℤ) : ℚ) / 100

/-- The `cartTotals` accumulation step: a market-price item sets the
`hasMarket` flag and contributes nothing; a fixed-price item adds
`price.rm * qty` to the running total. -/
def totalsStep (acc : ℚ × Bool) (e : String × ℚ × Item) : ℚ × Bool :=
  match e.2.2.price with
  | Price.market => (acc.1, true)
  | Price.fixed rm => (acc.1 + rm * e.2.1, acc.2)

/-- `cartTotals` from `Menu.tsx`: fold the joined cart entries starting
from total 0 and `hasMarket = false`, then round the total to 2 decimal
places. -/
def cartTotals (cart : Cart) : ℚ × Bool :=
  let r := (cartItems cart).foldl totalsStep ((0 : ℚ), false)
  (round2 r.1, r.2)

/-- The contribution of one cart entry as the claim words it: unit price
times quantity for fixed-price catalog items, nothing otherwise. -/
def itemAmount (e : String × ℚ) : ℚ :=
  match findItem e.1 with
  | none => 0
  | some it =>
    match it.price with
    | Price.fixed rm => rm * e.2
    | Price.market => 0

/-- Fixed-price contribution of a joined entry. -/
def entryAmt (e : String × ℚ × Item) : ℚ :=
  match e.2.2.price with
  | Price.fixed rm => rm * e.2.1
  | Price.market => 0

/-- Whether a joined entry is a market-price item. -/
def entryIsMarket (e : String × ℚ × Item) : Bool :=
  priceIsMarket e.2.2.price

lemma totals_foldl (l : List (String × ℚ × Item)) :
    ∀ (t : ℚ) (h : Bool),
      l.foldl totalsStep (t, h)
        = (t + (l.map entryAmt).sum, h || l.any entryIsMarket) := by
  induction l with
  | nil => intro t h; simp
  | cons e rest ih =>
    intro t h
    rw [List.foldl_cons]
    cases hp : e.2.2.price with
    | market =>
      rw [show totalsStep (t, h) e = (t, true) from by
            rw [totalsStep]; rw [hp]]
      rw [ih t true]
      have hm : entryIsMarket e = true := by
        rw [entryIsMarket, hp]; rfl
      have ha : entryAmt e = 0 := by
        rw [entryAmt]; rw [hp]
      simp [hm, ha]
    | fixed rm =>
      rw [show totalsStep (t, h) e = (t + rm * e.2.1, h) from by
            rw [totalsStep]; rw [hp]]
      rw [ih (t + rm * e.2.1) h]
      have hm : entryIsMarket e = false := by
        rw [entryIsMarket, hp]; rfl
      have ha : entryAmt e = rm * e.2.1 := by
        rw [entryAmt]; rw [hp]
      simp [hm, ha]
      ring

lemma cartItems_of_pos (cart : Cart) (hpos : ∀ e ∈ cart, 0 < e.2) :
    cartItems cart
      = cart.filterMap
          (fun e => (findItem e.1).map (fun it => (e.1, e.2, it))) := by
  rw [cartItems]
  congr 1
  rw [List.filter_eq_self]
  intro e he
  simpa using hpos e he

lemma sum_entryAmt (cart : Cart) :
    (((cart.filterMap
          (fun e => (findItem e.1).map (fun it => (e.1, e.2, it)))).map
        entryAmt).sum)
      = (cart.map itemAmount).sum := by
  induction cart with
  | nil => rfl
  | cons e rest ih =>
    rw [List.filterMap_cons, List.map_cons]
    cases hfi : findItem e.1 with
    | none =>
      have ha : itemAmount e = 0 := by
        rw [itemAmount, hfi]
      rw [List.sum_cons, ha]
      simpa using ih
    | some it =>
      have ha : itemAmount e = entryAmt (e.1, e.2, it) := by
        rw [itemAmount, hfi, entryAmt]
      rw [List.sum_cons, ha]
      simp only [Option.map_some']
      rw [List.map_cons, List.sum_cons, ih]

lemma any_entryIsMarket (cart : Cart) :
    ((cart.filterMap
          (fun e => (findItem e.1).map (fun it => (e.1, e.2, it)))).any
        entryIsMarket) = true
      ↔ ∃ e ∈ cart, ∃ it, findItem e.1 = some it
          ∧ it.price = Price.market := by
  induction cart with
  | nil => simp
  | cons e rest ih =>
    rw [List.filterMap_cons]
    cases hfi : findItem e.1 with
    | none =>
      simp only [Option.map_none']
      rw [ih]
      constructor
      · intro ⟨f, hf, it, hfit, hm⟩
        exact ⟨f, List.mem_cons_of_mem _ hf, it, hfit, hm⟩
      · intro ⟨f, hf, it, hfit, hm⟩
        rcases List.mem_cons.mp hf with hfe | hf2
        · subst hfe
          rw [hfi] at hfit
          cases hfit
        · exact ⟨f, hf2, it, hfit, hm⟩
    | some it =>
      simp only [Option.map_some', List.any_cons, Bool.or_eq_true, ih]
      constructor
      · intro h
        rcases h with h | ⟨f, hf, jt, hfjt, hm⟩
        · refine ⟨e, List.mem_cons_self _ _, it, hfi, ?_⟩
          rw [entryIsMarket] at h
          cases hp : it.price with
          | market => rfl
          | fixed rm =>
            rw [hp] at h
            simp [priceIsMarket] at h
        · exact ⟨f, List.mem_cons_of_mem _ hf, jt, hfjt, hm⟩
      · intro ⟨f, hf, jt, hfjt, hm⟩
        rcases List.mem_cons.mp hf with hfe | hf2
        · subst hfe
          rw [hfi] at hfjt
          cases hfjt
          left
          rw [entryIsMarket]
          rw [hm]
          rfl
        · right
          exact ⟨f, hf2, jt, hfjt, hm⟩

/-- C6. For every cart map with positive quantities (the cart invariant),
the derived numeric total equals the sum of unit price times quantity over
all entries whose item has a fixed catalog price, rounded to two decimal
places with halves rounding up, and the `hasMarket` flag is set exactly
when some entry's catalog item carries the market-price sentinel. -/
theorem cartTotals_spec (cart : Cart) (hpos : ∀ e ∈ cart, 0 < e.2) :
    (cartTotals cart).1 = round2 ((cart.map itemAmount).sum)
    ∧ ((cartTotals cart).2 = true ↔
        ∃ e ∈ cart, ∃ it, findItem e.1 = some it
          ∧ it.price = Price.market) := by
  have hfold := totals_foldl (cartItems cart) 0 false
  have hitems := cartItems_of_pos cart hpos
  constructor
  · rw [cartTotals]
    simp only [hfold]
    rw [hitems, sum_entryAmt]
    norm_num
  · rw [cartTotals]
    simp only [hfold, Bool.false_or]
    rw [hitems]
    exact any_entryIsMarket cart

theorem cartTotals_spec_witness :
    (cartTotals [("stew-1", (2 : ℚ))]).1
      = round2 (([(("stew-1" : String), (2 : ℚ))].map itemAmount).sum) :=
  (cartTotals_spec [("stew-1", (2 : ℚ))] (by norm_num)).1

/-! ## Overlay mutual exclusion (`src/Menu.tsx`, the effects at the
bottom of `Menu` plus the rendering guards) -/

/-- The overlay-relevant slice of `Menu`'s state: the expandable floating
category panel (`fabOpen`), the floating cart panel (`cartOpen`), the item
lightbox (`lightboxItem`) and the full cart page (`cartPageOpen`). -/
structure OverlayState where
  fabOpen : Bool
  cartOpen : Bool
  lightbox : Option Item
  cartPageOpen : Bool
deriving DecidableEq, Repr

/-- The user interactions that open or close overlays in `Menu`. -/
inductive OverlayEvent where
  | toggleFab
  | toggleCart
  | openLightbox (it : Item)
  | closeLightbox
  | openCartPage
  | closeCartPage
deriving DecidableEq, Repr

/-- One user interaction together with the mutual-exclusion effects React
runs before the next interaction can occur.

- `toggleFab` / `toggleCart`: the floating buttons are rendered only while
  no lightbox is open (`!lightboxItem && showFloating`) and they sit below
  the full-screen cart page overlay (`fixed inset-0`, higher `z-index`), so
  neither can be clicked while the lightbox or the cart page is open;
  otherwise `setFabOpen((v) => !v)` / `setCartOpen((v) => !v)` runs and the
  `[fabOpen]` / `[cartOpen]` effects close the other panel when one has
  just opened.
- `openLightbox`: a menu card click cannot reach through the full-screen
  cart page; otherwise `setLightboxItem(m)` runs and the `[lightboxItem]`
  effects close both floating panels.
- `openCartPage`: the triggering button lives inside the open cart panel,
  so it requires `cartOpen`; the `[cartPageOpen]` effect then closes the
  floating panels and the lightbox.
- the close interactions clear their own flag. -/
def overlayStep (s : OverlayState) : OverlayEvent → OverlayState
  | OverlayEvent.toggleFab =>
    if s.lightbox.isSome || s.cartPageOpen then s
    else if s.fabOpen then { s with fabOpen := false }
    else { s with fabOpen := true, cartOpen := false }
  | OverlayEvent.toggleCart =>
    if s.lightbox.isSome || s.cartPageOpen then s
    else if s.cartOpen then { s with cartOpen := false }
    else { s with cartOpen := true, fabOpen := false }
  | OverlayEvent.openLightbox it =>
    if s.cartPageOpen then s
    else { s with lightbox := some it, fabOpen := false, cartOpen := false }
  | OverlayEvent.closeLightbox => { s with lightbox := none }
  | OverlayEvent.openCartPage =>
    if s.cartOpen then
      { s with
        cartPageOpen := true
        fabOpen := false
        cartOpen := false
        lightbox := none }
    else s
  | OverlayEvent.closeCartPage => { s with cartPageOpen := false }

/-- Number of modal-like overlays currently open. -/
def openCount (s : OverlayState) : ℕ :=
  (if s.fabOpen then 1 else 0) + (if s.cartOpen then 1 else 0)
    + (if s.lightbox.isSome then 1 else 0)
    + (if s.cartPageOpen then 1 else 0)

/-- The initial `Menu` state: everything closed. -/
def initOverlay : OverlayState :=
  { fabOpen := false, cartOpen := false, lightbox := none
    cartPageOpen := false }

/-- Run a sequence of interactions from the initial state. -/
def runOverlay (es : List OverlayEvent) : OverlayState :=
  es.foldl overlayStep initOverlay

lemma overlayStep_atMostOne (s : OverlayState) (e : OverlayEvent)
    (h : openCount s ≤ 1) : openCount (overlayStep s e) ≤ 1 := by
  obtain ⟨fab, cart, lb, page⟩ := s
  cases e <;> cases fab <;> cases cart <;> cases page <;> cases lb <;>
    simp_all [overlayStep, openCount]

lemma runOverlay_aux (es : List OverlayEvent) :
    ∀ s : OverlayState, openCount s ≤ 1 →
      openCount (es.foldl overlayStep s) ≤ 1 := by
  induction es with
  | nil => intro s h; exact h
  | cons e rest ih =>
    intro s h
    exact ih (overlayStep s e) (overlayStep_atMostOne s e h)

/-- C9. Overlay mutual exclusion: every state reachable from the initial
state by user interactions has at most one modal-like overlay (floating
category panel, cart panel, lightbox, full cart page) open; moreover, on
any state with at most one open overlay, opening the category panel closes
the cart panel and vice versa, opening the lightbox closes both members of
the floating menu family, and opening the full cart page closes the
category panel, the cart panel and the lightbox. -/
theorem overlay_mutual_exclusion :
    (∀ es : List OverlayEvent, openCount (runOverlay es) ≤ 1)
    ∧ (∀ s : OverlayState, openCount s ≤ 1 →
        (overlayStep s OverlayEvent.toggleFab).fabOpen = true →
          (overlayStep s OverlayEvent.toggleFab).cartOpen = false)
    ∧ (∀ s : OverlayState, openCount s ≤ 1 →
        (overlayStep s OverlayEvent.toggleCart).cartOpen = true →
          (overlayStep s OverlayEvent.toggleCart).fabOpen = false)
    ∧ (∀ (s : OverlayState) (it : Item), s.cartPageOpen = false →
        (overlayStep s (OverlayEvent.openLightbox it)).fabOpen = false
          ∧ (overlayStep s (OverlayEvent.openLightbox it)).cartOpen = false)
    ∧ (∀ s : OverlayState, s.cartOpen = true →
        (overlayStep s OverlayEvent.openCartPage).fabOpen = false
          ∧ (overlayStep s OverlayEvent.openCartPage).cartOpen = false
          ∧ (overlayStep s OverlayEvent.openCartPage).lightbox = none
          ∧ (overlayStep s OverlayEvent.openCartPage).cartPageOpen
              = true) := by
  refine ⟨?_, ?_, ?_, ?_, ?_⟩
  · intro es
    exact runOverlay_aux es initOverlay (by decide)
  · intro s h
    obtain ⟨fab, cart, lb, page⟩ := s
    cases fab <;> cases cart <;> cases page <;> cases lb <;>
      simp_all [overlayStep, openCount]
  · intro s h
    obtain ⟨fab, cart, lb, page⟩ := s
    cases fab <;> cases cart <;> cases page <;> cases lb <;>
      simp_all [overlayStep, openCount]
  · intro s it h
    obtain ⟨fab, cart, lb, page⟩ := s
    simp_all [overlayStep]
  · intro s h
    obtain ⟨fab, cart, lb, page⟩ := s
    simp_all [overlayStep]

theorem overlay_mutual_exclusion_witness :
    openCount (runOverlay
        [OverlayEvent.toggleFab, OverlayEvent.toggleCart,
         OverlayEvent.openLightbox stew1]) ≤ 1
    ∧ (overlayStep initOverlay OverlayEvent.toggleFab).cartOpen = false :=
  ⟨overlay_mutual_exclusion.1
      [OverlayEvent.toggleFab, OverlayEvent.toggleCart,
       OverlayEvent.openLightbox stew1],
   overlay_mutual_exclusion.2.1 initOverlay (by decide) (by decide)⟩

end Ganada
